import Mathlib

/-
Verification of the offline task-synchronization core of the CopilotTest
repository (Angular task manager with offline queue-and-replay sync).

The embedding translates:
  * `src/frontend/src/app/models/task.model.ts`        — Task, SyncStatus
  * `src/frontend/src/app/services/local-storage.service.ts`
                                                       — LocalStorageService, PendingAction
  * the offline-aware TaskService (second unit of `src/frontend/src/app/app.module.ts`)
  * the OfflineService (`src/unnamed/part_001`)        — drain / replay logic

Modelling conventions:
  * ISO-8601 timestamps (`createdAt`, `timestamp`, `last_sync`) are compared in
    the source only through `new Date(x).getTime()`; they are modelled as the
    underlying millisecond count (`Nat`).
  * `Date.now().toString()` (the pending-action id) is the decimal rendering of
    the millisecond clock; decimal rendering of naturals is injective, so the
    id is modelled as the clock value itself: two ids are equal exactly when
    the corresponding strings are equal.
  * The wall clock is passed explicitly as a `now : Nat` argument wherever the
    source reads `Date.now()` / `new Date()`.
  * `localStorage` holds three JSON records (tasks, pending_actions, last_sync);
    it is modelled as the record `LocalStore`.
  * HTTP calls are modelled by an explicit outcome argument
    (`Except HttpErrorResponse α` for gateway calls, an environment
    `RemoteCall → Option Task` for the drain); the list of calls actually
    dispatched is returned alongside the new state.
-/

namespace CopilotTest

/-- Task status union type from `task.model.ts`. -/
inductive TaskStatus
  | todo
  | inProgress
  | done
deriving DecidableEq, Repr

/-- Task interface from `task.model.ts`: `id?: number`, `title: string`,
`description?: string`, `status: TaskStatus`, `createdAt: string` (ISO,
modelled as ms count), `priority?: number`. -/
structure Task where
  id : Option Nat := none
  title : String := ""
  description : Option String := none
  status : TaskStatus := .todo
  createdAt : Nat := 0
  priority : Option Nat := none
deriving DecidableEq, Repr

/-- Pending action type union from `local-storage.service.ts`. -/
inductive PendingActionType
  | create
  | update
  | delete
  | reorder
deriving DecidableEq, Repr

/-- PendingAction interface from `local-storage.service.ts`. The `data` field
is `any` in the source but is only ever populated with `{ tasks }` (by
`TaskService.reorderTasks`) and only ever read as `action.data.tasks` (by
`OfflineService.processPendingAction`), so it is modelled as the task list. -/
structure PendingAction where
  id : Nat
  type : PendingActionType
  task : Option Task := none
  taskId : Option Nat := none
  data : Option (List Task) := none
  timestamp : Nat
deriving DecidableEq, Repr

/-- The argument of `addPendingAction`: `Omit<PendingAction, 'id' | 'timestamp'>`. -/
structure PendingActionDraft where
  type : PendingActionType
  task : Option Task := none
  taskId : Option Nat := none
  data : Option (List Task) := none
deriving DecidableEq, Repr

/-- The three `localStorage` records managed by `LocalStorageService`:
key `tasks`, key `pending_actions`, key `last_sync` (absent = `none`). -/
structure LocalStore where
  tasks : List Task := []
  pendingActions : List PendingAction := []
  lastSync : Option Nat := none
deriving DecidableEq, Repr

/-- JavaScript `a || b` on an optional number `a`: `undefined` and `0` are
falsy, every other number is truthy.  Used by `addTask` for
`task.priority = task.priority || tasks.length`. -/
def jsOrNat : Option Nat → Nat → Nat
  | none, d => d
  | some 0, d => d
  | some (k + 1), _ => k + 1

namespace LocalStore

/-- Source `getTasks()`: parse the cached task list (empty if never populated). -/
def getTasks (s : LocalStore) : List Task :=
  s.tasks

/-- Source `saveTasks(tasks)`: replace the whole cached list. -/
def saveTasks (s : LocalStore) (tasks : List Task) : LocalStore :=
  { s with tasks := tasks }

/-- The in-place mutation `task.priority = task.priority || tasks.length`
performed by `addTask` on its argument before pushing it. -/
def assignPriority (s : LocalStore) (t : Task) : Task :=
  { t with priority := some (jsOrNat t.priority s.tasks.length) }

/-- Source `addTask(task)`: assign priority from the current list length when the
incoming priority is falsy, then append. -/
def addTask (s : LocalStore) (t : Task) : LocalStore :=
  { s with tasks := s.tasks ++ [s.assignPriority t] }

/-- Source `updateTask(updatedTask)`: replace the first task whose `id` matches;
no-op when absent (`findIndex` returns -1). -/
def updateTask (s : LocalStore) (updatedTask : Task) : LocalStore :=
  match s.tasks.findIdx? (fun t => t.id == updatedTask.id) with
  | some i => { s with tasks := s.tasks.set i updatedTask }
  | none => s

/-- Source `deleteTask(taskId)`: keep every task whose id differs. -/
def deleteTask (s : LocalStore) (taskId : Nat) : LocalStore :=
  { s with tasks := s.tasks.filter (fun t => t.id != some taskId) }

/-- The `reorderedTasks.map((task, index) => ({ ...task, priority: index }))`
body of `reorderTasks`, written as explicit recursion on the list with the
running index. -/
def assignIndices : Nat → List Task → List Task
  | _, [] => []
  | i, t :: rest => { t with priority := some i } :: assignIndices (i + 1) rest

/-- Source `reorderTasks(reorderedTasks)`: rewrite every priority to the positional
index, then persist the rewritten list. -/
def reorderTasks (s : LocalStore) (reorderedTasks : List Task) : LocalStore :=
  s.saveTasks (assignIndices 0 reorderedTasks)

/-- Source `addPendingAction(action)`: stamp `id := Date.now().toString()` and
`timestamp := new Date().toISOString()` (both readings of the same clock,
passed as `now`), then append to the queue. -/
def addPendingAction (s : LocalStore) (now : Nat) (action : PendingActionDraft) : LocalStore :=
  { s with
      pendingActions := s.pendingActions ++
        [{ id := now
           type := action.type
           task := action.task
           taskId := action.taskId
           data := action.data
           timestamp := now }] }

/-- Source `getPendingActions()`. -/
def getPendingActions (s : LocalStore) : List PendingAction :=
  s.pendingActions

/-- Source `removePendingAction(actionId)`: keep every action whose id differs. -/
def removePendingAction (s : LocalStore) (actionId : Nat) : LocalStore :=
  { s with pendingActions := s.pendingActions.filter (fun a => a.id != actionId) }

/-- Source `clearPendingActions()`. -/
def clearPendingActions (s : LocalStore) : LocalStore :=
  { s with pendingActions := [] }

/-- Source `getLastSyncTime()` (`null` when never set). -/
def getLastSyncTime (s : LocalStore) : Option Nat :=
  s.lastSync

/-- Source `setLastSyncTime(time)`. -/
def setLastSyncTime (s : LocalStore) (time : Nat) : LocalStore :=
  { s with lastSync := some time }

end LocalStore

/-- Source `Partial<Task>` as used by `patchTask`: every field optionally present.
A present field overwrites the target field in the object spread
`{ ...existingTask, ...partial }`, including a present-but-`undefined`
optional field (hence the nested `Option` for the optional Task fields). -/
structure TaskPatch where
  id : Option (Option Nat) := none
  title : Option String := none
  description : Option (Option String) := none
  status : Option TaskStatus := none
  createdAt : Option Nat := none
  priority : Option (Option Nat) := none
deriving DecidableEq, Repr

/-- Object spread `{ ...t, ...d }` for a task and a `Partial<Task>`. -/
def Task.applyPatch (t : Task) (d : TaskPatch) : Task :=
  { id := d.id.getD t.id
    title := d.title.getD t.title
    description := d.description.getD t.description
    status := d.status.getD t.status
    createdAt := d.createdAt.getD t.createdAt
    priority := d.priority.getD t.priority }

/-- One HTTP request dispatched by the gateway against the `tasks` resource. -/
inductive RemoteCall
  | getList (statusFilter : Option TaskStatus) (sortByCreatedAtDesc : Bool)
  | post (body : Task)
  | put (id : Nat) (body : Task)
  | patch (id : Nat) (delta : TaskPatch)
  | delete (id : Nat)
deriving DecidableEq, Repr

/-- The fields of Angular's `HttpErrorResponse` inspected by
`TaskService.handleError`. -/
structure HttpErrorResponse where
  isNetworkErrorEvent : Bool := false
  networkMessage : String := ""
  status : Nat := 0
  message : String := ""
deriving DecidableEq, Repr

/-- Source `TaskService.handleError`: classify a failed HTTP call into one
human-readable message string. -/
def handleError (e : HttpErrorResponse) : String :=
  if e.isNetworkErrorEvent then
    "Network error: " ++ e.networkMessage
  else if e.status = 0 then
    "Cannot connect to server. Is the Mock API running on http://localhost:3001?"
  else
    "Server error " ++ toString e.status ++ ": " ++ e.message

/-- Options object of `TaskService.getTasks` (pagination fields omitted:
they only shape the query string of the online request). -/
structure GetTasksOptions where
  status : Option TaskStatus := none
  sortByCreatedAtDesc : Bool := false
deriving DecidableEq, Repr

/-- The comparator passed to `tasks.sort` in the offline branch of
`TaskService.getTasks` (negative means `a` before `b`):
priority difference when both tasks carry a priority, otherwise
`createdAt` difference in the requested direction. -/
def taskCompare (sortByCreatedAtDesc : Bool) (a b : Task) : Int :=
  match a.priority, b.priority with
  | some pa, some pb => (pa : Int) - (pb : Int)
  | _, _ =>
    if sortByCreatedAtDesc then (b.createdAt : Int) - (a.createdAt : Int)
    else (a.createdAt : Int) - (b.createdAt : Int)

/-- Payload of `TaskService.createTask`: `Omit<Task, 'id' | 'createdAt'>`. -/
structure CreateTaskPayload where
  title : String := ""
  description : Option String := none
  status : TaskStatus := .todo
  priority : Option Nat := none
deriving DecidableEq, Repr

namespace TaskService

/-- Source `TaskService.getTasks(options?)`: offline, serve, filter and sort the
cached list (`Array.prototype.sort` is stable; with the comparator above a
stable sort is modelled by `List.mergeSort` on `comparator ≤ 0`); online,
issue the GET and overwrite the cache with the response on success. -/
def getTasks (online : Bool) (opts : GetTasksOptions)
    (remote : Except HttpErrorResponse (List Task)) (s : LocalStore) :
    LocalStore × List RemoteCall × Except String (List Task) :=
  if !online then
    let tasks := s.getTasks
    let tasks :=
      match opts.status with
      | some st => tasks.filter (fun (t : Task) => t.status == st)
      | none => tasks
    let sorted := tasks.mergeSort (fun a b => taskCompare opts.sortByCreatedAtDesc a b ≤ 0)
    (s, [], .ok sorted)
  else
    match remote with
    | .ok tasks =>
      (s.saveTasks tasks, [.getList opts.status opts.sortByCreatedAtDesc], .ok tasks)
    | .error e =>
      (s, [.getList opts.status opts.sortByCreatedAtDesc], .error (handleError e))

/-- Source `TaskService.createTask(payload)`: build `body` with a client timestamp
and the temporary id `Date.now()`.  Offline: `addTask(body)` (which mutates
`body.priority` in place before the same object is enqueued and returned),
then enqueue a `create` action.  Online: POST the body without the temporary
id; on success cache the server task; on failure leave the cache unchanged
and return the classified error. -/
def createTask (online : Bool) (now : Nat) (payload : CreateTaskPayload)
    (remote : Except HttpErrorResponse Task) (s : LocalStore) :
    LocalStore × List RemoteCall × Except String Task :=
  let body : Task :=
    { id := some now
      title := payload.title
      description := payload.description
      status := payload.status
      createdAt := now
      priority := payload.priority }
  if !online then
    let stored := s.assignPriority body
    let s1 := s.addTask body
    let s2 := s1.addPendingAction now { type := .create, task := some stored }
    (s2, [], .ok stored)
  else
    let createPayload := { body with id := none }
    match remote with
    | .ok task => (s.addTask task, [.post createPayload], .ok task)
    | .error e => (s, [.post createPayload], .error (handleError e))

/-- Source `TaskService.updateTask(id, task)`: offline, write through the cache
(no-op when the id is absent), enqueue an `update` action and return the
task; online, PUT and cache the response on success. -/
def updateTask (online : Bool) (now : Nat) (id : Nat) (task : Task)
    (remote : Except HttpErrorResponse Task) (s : LocalStore) :
    LocalStore × List RemoteCall × Except String Task :=
  if !online then
    let s1 := s.updateTask task
    let s2 := s1.addPendingAction now { type := .update, task := some task }
    (s2, [], .ok task)
  else
    match remote with
    | .ok updatedTask => (s.updateTask updatedTask, [.put id task], .ok updatedTask)
    | .error e => (s, [.put id task], .error (handleError e))

/-- Source `TaskService.patchTask(id, partial)`: offline, require the target task in
the cache — merge, write through and enqueue when found, otherwise fail with
the thrown string `'Task not found'` touching nothing; online, PATCH and
cache the response on success. -/
def patchTask (online : Bool) (now : Nat) (id : Nat) (delta : TaskPatch)
    (remote : Except HttpErrorResponse Task) (s : LocalStore) :
    LocalStore × List RemoteCall × Except String Task :=
  if !online then
    match s.getTasks.find? (fun t => t.id == some id) with
    | some existingTask =>
      let updatedTask := existingTask.applyPatch delta
      let s1 := s.updateTask updatedTask
      let s2 := s1.addPendingAction now { type := .update, task := some updatedTask }
      (s2, [], .ok updatedTask)
    | none => (s, [], .error "Task not found")
  else
    match remote with
    | .ok updatedTask => (s.updateTask updatedTask, [.patch id delta], .ok updatedTask)
    | .error e => (s, [.patch id delta], .error (handleError e))

/-- Source `TaskService.deleteTask(id)`: offline, delete locally and enqueue a
`delete` action; online, DELETE and delete locally on success. -/
def deleteTask (online : Bool) (now : Nat) (id : Nat)
    (remote : Except HttpErrorResponse Unit) (s : LocalStore) :
    LocalStore × List RemoteCall × Except String Unit :=
  if !online then
    let s1 := s.deleteTask id
    let s2 := s1.addPendingAction now { type := .delete, taskId := some id }
    (s2, [], .ok ())
  else
    match remote with
    | .ok _ => (s.deleteTask id, [.delete id], .ok ())
    | .error e => (s, [.delete id], .error (handleError e))

/-- Source `TaskService.reorderTasks(tasks)`: rewrite the local cache FIRST,
unconditionally; offline, additionally enqueue a `reorder` action carrying
the original (pre-rewrite) list; online, make NO remote call
("we could implement batch update API call here; for now, just return"). -/
def reorderTasks (online : Bool) (now : Nat) (tasks : List Task) (s : LocalStore) :
    LocalStore × List RemoteCall × Except String (List Task) :=
  let s1 := s.reorderTasks tasks
  if !online then
    let s2 := s1.addPendingAction now { type := .reorder, data := some tasks }
    (s2, [], .ok tasks)
  else
    (s1, [], .ok tasks)

end TaskService

/-- SyncStatus interface from `task.model.ts`. -/
structure SyncStatus where
  isOnline : Bool
  pendingSyncCount : Nat
  lastSyncTime : Option Nat
deriving DecidableEq, Repr

namespace PendingAction

/-- The per-task loop of the `reorder` branch of
`OfflineService.processPendingAction`: one `patchTask(task.id, { priority:
task.priority })` call per task whose id passes the JavaScript truthiness
guard `if (task.id)` — an absent id AND the id 0 are both falsy and are
skipped — in payload order. -/
def reorderReplayCalls : List Task → List RemoteCall
  | [] => []
  | t :: rest =>
    match t.id with
    | some (i + 1) => .patch (i + 1) { priority := some t.priority } :: reorderReplayCalls rest
    | _ => reorderReplayCalls rest

/-- The remote calls `OfflineService.processPendingAction` dispatches for one
queued action, in dispatch order (via the online branches of the TaskService
operations it re-invokes; the drain runs while online).  A `create` replay
re-enters `TaskService.createTask` with only title/description/status, so the
POSTed body carries a fresh `createdAt` (the replay-time clock `now`) and no
priority; the temporary id is stripped before POSTing.  The guards
`if (action.task && action.task.id)` and `if (action.taskId)` are JavaScript
truthiness checks: a numeric id of 0 is falsy, so an `update` of a task with
id 0 and a `delete` with taskId 0 dispatch nothing (an object, by contrast,
is always truthy, so `a.task`/`a.data` only test presence). -/
def replayCalls (now : Nat) (a : PendingAction) : List RemoteCall :=
  match a.type with
  | .create =>
    match a.task with
    | some t =>
      [.post { id := none
               title := t.title
               description := t.description
               status := t.status
               createdAt := now
               priority := none }]
    | none => []
  | .update =>
    match a.task with
    | some t =>
      match t.id with
      | some (i + 1) => [.put (i + 1) t]
      | _ => []
    | none => []
  | .delete =>
    match a.taskId with
    | some (i + 1) => [.delete (i + 1)]
    | _ => []
  | .reorder =>
    match a.data with
    | some ts => reorderReplayCalls ts
    | none => []

end PendingAction

namespace OfflineService

/-- Source `updateSyncStatus()`: republish the subject with the live queue length
and stored last-sync time, keeping the current connectivity flag. -/
def updateSyncStatus (s : LocalStore) (st : SyncStatus) : SyncStatus :=
  { st with
      pendingSyncCount := s.getPendingActions.length
      lastSyncTime := s.getLastSyncTime }

/-- Local-cache effect of one successful replay call, i.e. the `map`
callback of the online branch the call came from: POST → `addTask`
(response task), PUT/PATCH → `updateTask` (response task), DELETE →
`deleteTask` (the id).  `getList` is never dispatched by a replay. -/
def applyCallSuccess (s : LocalStore) : RemoteCall → Task → LocalStore
  | .post _, resp => s.addTask resp
  | .put _ _, resp => s.updateTask resp
  | .patch _ _, resp => s.updateTask resp
  | .delete i, _ => s.deleteTask i
  | .getList _ _, _ => s

/-- Awaiting the calls of one action in order against the remote environment
(`env c = none` means call `c` fails): returns the resulting store, the list
of calls actually dispatched, and whether the whole action succeeded.  The
first failing call throws, so later calls of the same action are not
dispatched. -/
def runReplayCalls (env : RemoteCall → Option Task) :
    LocalStore → List RemoteCall → LocalStore × List RemoteCall × Bool
  | s, [] => (s, [], true)
  | s, c :: rest =>
    match env c with
    | none => (s, [c], false)
    | some resp =>
      let s' := applyCallSuccess s c resp
      let res := runReplayCalls env s' rest
      (res.1, c :: res.2.1, res.2.2)

/-- The `for (const action of pendingActions)` loop of
`syncPendingActions`, iterating over the queue SNAPSHOT while removals act
on the live store: on success `removePendingAction(action.id)` and continue;
on the first failure keep the action and `break`.  Returns the resulting
store and the list of actions that were dispatched (the failed one
included). -/
def syncLoop (env : RemoteCall → Option Task) (now : Nat) :
    LocalStore → List PendingAction → LocalStore × List PendingAction
  | s, [] => (s, [])
  | s, a :: rest =>
    let step := runReplayCalls env s (a.replayCalls now)
    if step.2.2 then
      let res := syncLoop env now (step.1.removePendingAction a.id) rest
      (res.1, a :: res.2)
    else
      (step.1, [a])

/-- Source `OfflineService.syncPendingActions()`: return immediately on an empty
queue; otherwise run the drain loop, then UNCONDITIONALLY stamp
`setLastSyncTime(new Date().toISOString())` (even when the loop halted on a
failure) and republish the sync status.  Result: final store, published
status, dispatched actions. -/
def syncPendingActions (env : RemoteCall → Option Task) (now : Nat)
    (s : LocalStore) (st : SyncStatus) : LocalStore × SyncStatus × List PendingAction :=
  let pendingActions := s.getPendingActions
  if pendingActions.isEmpty then
    (s, st, [])
  else
    let res := syncLoop env now s pendingActions
    let s2 := res.1.setLastSyncTime now
    (s2, updateSyncStatus s2 st, res.2)

/-- An action replays successfully iff every one of its calls succeeds. -/
def actionSucceeds (env : RemoteCall → Option Task) (now : Nat) (a : PendingAction) : Bool :=
  (a.replayCalls now).all (fun c => (env c).isSome)

end OfflineService

/-- The store together with the `SyncStatus` last pushed on
`OfflineService.syncStatusSubject`.  `TaskService` holds no reference to
`OfflineService` (the dependency runs the other way), so no gateway
operation republishes the subject; the published status is recomputed only
by `updateSyncStatus` — at service construction and at the end of a drain. -/
structure OfflineSystem where
  store : LocalStore
  status : SyncStatus
deriving DecidableEq, Repr

/-- Source `TaskService.createTask` as observed at system level: the store changes,
the published `SyncStatus` does not (no call path from the gateway to
`updateSyncStatus`). -/
def OfflineSystem.createTask (sys : OfflineSystem) (online : Bool) (now : Nat)
    (payload : CreateTaskPayload) (remote : Except HttpErrorResponse Task) : OfflineSystem :=
  { sys with store := (TaskService.createTask online now payload remote sys.store).1 }

/-- Enqueuing a whole sequence of drafts, each with its own clock reading. -/
def enqueueAll (s : LocalStore) : List (Nat × PendingActionDraft) → LocalStore
  | [] => s
  | (now, d) :: rest => enqueueAll (s.addPendingAction now d) rest

/-
Concrete scenarios used by witnesses and counterexamples.
-/

/-- A queue of three delete actions with pairwise-distinct ids. -/
def wA : PendingAction := { id := 1, type := .delete, taskId := some 10, timestamp := 0 }

/-- Second action of the distinct-id scenario. -/
def wB : PendingAction := { id := 2, type := .delete, taskId := some 20, timestamp := 0 }

/-- Third action of the distinct-id scenario. -/
def wC : PendingAction := { id := 3, type := .delete, taskId := some 30, timestamp := 0 }

/-- A remote environment in which only `DELETE /tasks/20` fails. -/
def envW : RemoteCall → Option Task := fun c =>
  match c with
  | .delete 20 => none
  | _ => some {}

/-- Store holding the three-action queue. -/
def storeW : LocalStore := { pendingActions := [wA, wB, wC] }

/-- A published status consistent with `storeW` before the drain. -/
def stW : SyncStatus := { isOnline := true, pendingSyncCount := 3, lastSyncTime := none }

/-- The duplicate-id scenario: two actions enqueued in the same millisecond
(`Date.now()` returned 1 twice) surrounding one with a different id. -/
def dupA : PendingAction := { id := 1, type := .delete, taskId := some 10, timestamp := 1 }

/-- Second action of the duplicate-id scenario (distinct id). -/
def dupB : PendingAction := { id := 2, type := .delete, taskId := some 20, timestamp := 2 }

/-- Third action of the duplicate-id scenario: same id as `dupA`. -/
def dupC : PendingAction := { id := 1, type := .delete, taskId := some 30, timestamp := 1 }

/-- Store holding the duplicate-id queue. -/
def storeDup : LocalStore := { pendingActions := [dupA, dupB, dupC] }

/-- A remote environment in which every call fails. -/
def envNone : RemoteCall → Option Task := fun _ => none

/-- A single action whose replay will fail under `envNone`. -/
def aFail : PendingAction := { id := 7, type := .delete, taskId := some 20, timestamp := 0 }

/-- Store holding only the failing action, never synced before. -/
def storeFail : LocalStore := { pendingActions := [aFail] }

/-- Published status before the failing drain. -/
def stFail : SyncStatus := { isOnline := true, pendingSyncCount := 1, lastSyncTime := none }

/-- A fresh system whose published pending count (0) matches its empty queue. -/
def sysBefore : OfflineSystem :=
  { store := {}, status := { isOnline := false, pendingSyncCount := 0, lastSyncTime := none } }

/-- The system after one offline `createTask` through the gateway. -/
def sysAfter : OfflineSystem :=
  sysBefore.createTask false 5 { title := "offline task" } (.ok {})

/-- Two enqueues performed within the same millisecond (`Date.now()`
returned 42 for both), starting from an empty store. -/
def storeCollide : LocalStore :=
  enqueueAll {} [(42, { type := .delete, taskId := some 1 }),
                 (42, { type := .delete, taskId := some 2 })]

/-- Two enqueues performed at distinct milliseconds from an empty store. -/
def distinctEnqueues : List (Nat × PendingActionDraft) :=
  [(1, { type := .delete, taskId := some 1 }), (2, { type := .delete, taskId := some 2 })]

/-
Helper lemmas.
-/

/-- Source `updateTask` never touches the pending-action queue. -/
theorem LocalStore.updateTask_pendingActions (s : LocalStore) (u : Task) :
    (s.updateTask u).pendingActions = s.pendingActions := by
  unfold LocalStore.updateTask
  cases s.tasks.findIdx? (fun t => t.id == u.id) <;> rfl

/-- Source `updateTask` is a no-op when no cached task has the incoming id. -/
theorem LocalStore.updateTask_of_absent (s : LocalStore) (u : Task)
    (h : ∀ x ∈ s.tasks, x.id ≠ u.id) : s.updateTask u = s := by
  unfold LocalStore.updateTask
  have hidx : s.tasks.findIdx? (fun t => t.id == u.id) = none := by
    rw [List.findIdx?_eq_none_iff]
    intro x hx
    simpa using h x hx
  rw [hidx]

/-- The cache effect of a successful replay call never touches the queue. -/
theorem OfflineService.applyCallSuccess_pendingActions (s : LocalStore) (c : RemoteCall)
    (resp : Task) : (OfflineService.applyCallSuccess s c resp).pendingActions = s.pendingActions := by
  cases c with
  | getList a b => rfl
  | post b => rfl
  | put i b => exact LocalStore.updateTask_pendingActions s resp
  | patch i d => exact LocalStore.updateTask_pendingActions s resp
  | delete i => rfl

/-- Replaying one action's calls never touches the queue. -/
theorem OfflineService.runReplayCalls_pendingActions (env : RemoteCall → Option Task)
    (cs : List RemoteCall) : ∀ s : LocalStore,
    (OfflineService.runReplayCalls env s cs).1.pendingActions = s.pendingActions := by
  induction cs with
  | nil => intro s; rfl
  | cons c rest ih =>
    intro s
    cases henv : env c with
    | none => simp [OfflineService.runReplayCalls, henv]
    | some resp =>
      simp [OfflineService.runReplayCalls, henv, ih,
        OfflineService.applyCallSuccess_pendingActions]

/-- An action's replay succeeds exactly when every one of its calls succeeds. -/
theorem OfflineService.runReplayCalls_ok_eq (env : RemoteCall → Option Task)
    (cs : List RemoteCall) : ∀ s : LocalStore,
    (OfflineService.runReplayCalls env s cs).2.2 = cs.all (fun c => (env c).isSome) := by
  induction cs with
  | nil => intro s; rfl
  | cons c rest ih =>
    intro s
    cases henv : env c with
    | none => simp [OfflineService.runReplayCalls, henv]
    | some resp => simp [OfflineService.runReplayCalls, henv, ih]

/-- When every call of an action succeeds, exactly its full call list is
dispatched, in order. -/
theorem OfflineService.runReplayCalls_calls_of_all_ok (env : RemoteCall → Option Task)
    (cs : List RemoteCall) (h : ∀ c ∈ cs, (env c).isSome = true) :
    ∀ s : LocalStore, (OfflineService.runReplayCalls env s cs).2.1 = cs := by
  induction cs with
  | nil => intro s; rfl
  | cons c rest ih =>
    intro s
    have hc := h c (by simp)
    cases henv : env c with
    | none => rw [henv] at hc; simp at hc
    | some resp =>
      simp only [OfflineService.runReplayCalls, henv]
      simp [ih (fun x hx => h x (by simp [hx]))]

/-- The reorder replay loop is one priority patch per task with a truthy
(present and nonzero) id. -/
theorem PendingAction.reorderReplayCalls_eq_filterMap (ts : List Task) :
    PendingAction.reorderReplayCalls ts
      = ts.filterMap
          (fun t =>
            match t.id with
            | some (i + 1) => some (RemoteCall.patch (i + 1) { priority := some t.priority })
            | _ => none) := by
  induction ts with
  | nil => rfl
  | cons t rest ih =>
    rcases h : t.id with _ | (_ | i) <;>
      simp [PendingAction.reorderReplayCalls, h, ih, List.filterMap_cons]

/-- Every task produced by `assignIndices i ts` has some priority `j ≥ i`. -/
theorem LocalStore.assignIndices_mem_priority (ts : List Task) :
    ∀ i : Nat, ∀ b ∈ LocalStore.assignIndices i ts, ∃ j, i ≤ j ∧ b.priority = some j := by
  induction ts with
  | nil =>
    intro i b hb
    simp [LocalStore.assignIndices] at hb
  | cons t rest ih =>
    intro i b hb
    rw [LocalStore.assignIndices] at hb
    rcases List.mem_cons.mp hb with rfl | hb'
    · exact ⟨i, le_refl i, rfl⟩
    · obtain ⟨j, hij, hp⟩ := ih (i + 1) b hb'
      exact ⟨j, by omega, hp⟩

/-- The list `assignIndices i ts` is already sorted for the offline `getTasks`
comparator: priorities strictly increase along it. -/
theorem LocalStore.assignIndices_pairwise_le (sortByCreatedAtDesc : Bool) (ts : List Task) :
    ∀ i : Nat, (LocalStore.assignIndices i ts).Pairwise
      (fun a b => (decide (taskCompare sortByCreatedAtDesc a b ≤ 0)) = true) := by
  induction ts with
  | nil =>
    intro i
    simp [LocalStore.assignIndices]
  | cons t rest ih =>
    intro i
    rw [LocalStore.assignIndices]
    refine List.Pairwise.cons ?_ (ih (i + 1))
    intro b hb
    obtain ⟨j, hij, hp⟩ := LocalStore.assignIndices_mem_priority rest (i + 1) b hb
    simp only [taskCompare, hp, decide_eq_true_eq]
    omega

/-- Priorities down `assignIndices i ts` are exactly `i, i+1, …`. -/
theorem LocalStore.assignIndices_map_priority (ts : List Task) :
    ∀ i : Nat, (LocalStore.assignIndices i ts).map Task.priority
      = (List.range' i ts.length).map some := by
  induction ts with
  | nil => intro i; rfl
  | cons t rest ih =>
    intro i
    simp [LocalStore.assignIndices, List.range'_succ, ih (i + 1)]

/-- The ids after a sequence of enqueues are the previous ids followed by the
clock readings of the enqueues, in order. -/
theorem enqueueAll_ids (l : List (Nat × PendingActionDraft)) :
    ∀ s : LocalStore, ((enqueueAll s l).pendingActions.map PendingAction.id)
      = s.pendingActions.map PendingAction.id ++ l.map Prod.fst := by
  induction l with
  | nil => intro s; simp [enqueueAll]
  | cons p rest ih =>
    intro s
    obtain ⟨now, d⟩ := p
    simp [enqueueAll, ih, LocalStore.addPendingAction]

/-- The drain loop run on a queue whose first failure sits at position `k`,
with pairwise-distinct ids: the live queue ends as the suffix from `k` and
exactly the first `k + 1` actions were dispatched. -/
theorem OfflineService.syncLoop_halts_spec (env : RemoteCall → Option Task) (now : Nat) :
    ∀ (queue : List PendingAction) (k : Nat) (s : LocalStore),
      s.pendingActions = queue →
      (queue.map PendingAction.id).Nodup →
      ∀ hk : k < queue.length,
      (queue.take k).all (OfflineService.actionSucceeds env now) = true →
      OfflineService.actionSucceeds env now (queue.get ⟨k, hk⟩) = false →
      (OfflineService.syncLoop env now s queue).1.pendingActions = queue.drop k
      ∧ (OfflineService.syncLoop env now s queue).2 = queue.take (k + 1) := by
  intro queue
  induction queue with
  | nil =>
    intro k s _ _ hk
    exact absurd hk (by simp)
  | cons a rest ih =>
    intro k s hq hnd hk hsucc hfail
    cases k with
    | zero =>
      have hstep : (OfflineService.runReplayCalls env s (a.replayCalls now)).2.2 = false := by
        rw [OfflineService.runReplayCalls_ok_eq]
        exact hfail
      simp only [OfflineService.syncLoop, hstep, if_false, Bool.false_eq_true]
      refine ⟨?_, rfl⟩
      rw [OfflineService.runReplayCalls_pendingActions, hq, List.drop_zero]
    | succ j =>
      have hsa : OfflineService.actionSucceeds env now a = true := by
        rw [List.take_succ_cons, List.all_cons, Bool.and_eq_true] at hsucc
        exact hsucc.1
      have hstep : (OfflineService.runReplayCalls env s (a.replayCalls now)).2.2 = true := by
        rw [OfflineService.runReplayCalls_ok_eq]
        exact hsa
      have hs' : (OfflineService.runReplayCalls env s (a.replayCalls now)).1.pendingActions
          = a :: rest := by
        rw [OfflineService.runReplayCalls_pendingActions, hq]
      have hnotin : a.id ∉ rest.map PendingAction.id := (List.nodup_cons.mp hnd).1
      have hrm : ((OfflineService.runReplayCalls env s
          (a.replayCalls now)).1.removePendingAction a.id).pendingActions = rest := by
        simp only [LocalStore.removePendingAction, hs', List.filter_cons, bne_self_eq_false,
          Bool.false_eq_true, if_false]
        rw [List.filter_eq_self]
        intro x hx
        rw [bne_iff_ne]
        intro hxa
        exact hnotin (hxa ▸ List.mem_map_of_mem PendingAction.id hx)
      have hjk : j < rest.length := by
        simpa using hk
      have hsucc' : (rest.take j).all (OfflineService.actionSucceeds env now) = true := by
        rw [List.take_succ_cons, List.all_cons, Bool.and_eq_true] at hsucc
        exact hsucc.2
      have hfail' : OfflineService.actionSucceeds env now (rest.get ⟨j, hjk⟩) = false := by
        exact hfail
      obtain ⟨ih1, ih2⟩ := ih j _ hrm (List.nodup_cons.mp hnd).2 hjk hsucc' hfail'
      simp only [OfflineService.syncLoop, hstep, if_true]
      exact ⟨by rw [ih1, List.drop_succ_cons],
        by rw [ih2, List.take_succ_cons]⟩

/-
Claim theorems.
-/

/-- C1 (counterexample).  With duplicate action ids in the queue — reachable,
since ids are millisecond clock readings — the drain does NOT leave exactly
the suffix from the first failure: here `dupA` succeeds, `dupB` is the first
failure (position 1), yet the final queue is `[dupB]` rather than
`[dupB, dupC]`, because removing `dupA` by id also removed `dupC`. -/
theorem syncPendingActions_duplicate_id_counterexample :
    OfflineService.actionSucceeds envW 50 dupA = true
    ∧ OfflineService.actionSucceeds envW 50 dupB = false
    ∧ (OfflineService.syncPendingActions envW 50 storeDup stW).2.2 = [dupA, dupB]
    ∧ (OfflineService.syncPendingActions envW 50 storeDup stW).1.pendingActions = [dupB]
    ∧ (OfflineService.syncPendingActions envW 50 storeDup stW).1.pendingActions
        ≠ [dupB, dupC] := by decide

/-- C1 (amended).  Provided the action ids in the queue are pairwise
distinct, if replaying the action at position `k` is the first to fail, the
drain leaves exactly the actions at positions `≥ k` in original order and
dispatches exactly the actions at positions `≤ k` (so nothing after the
failed action reaches the remote API). -/
theorem syncPendingActions_halts_at_first_failure (env : RemoteCall → Option Task)
    (now : Nat) (s : LocalStore) (st : SyncStatus) (queue : List PendingAction) (k : Nat)
    (hq : s.pendingActions = queue)
    (hnd : (queue.map PendingAction.id).Nodup)
    (hk : k < queue.length)
    (hsucc : (queue.take k).all (OfflineService.actionSucceeds env now) = true)
    (hfail : OfflineService.actionSucceeds env now (queue.get ⟨k, hk⟩) = false) :
    (OfflineService.syncPendingActions env now s st).1.pendingActions = queue.drop k
    ∧ (OfflineService.syncPendingActions env now s st).2.2 = queue.take (k + 1) := by
  obtain ⟨h1, h2⟩ :=
    OfflineService.syncLoop_halts_spec env now queue k s hq hnd hk hsucc hfail
  have hne : queue.isEmpty = false := by
    cases queue
    · simp at hk
    · rfl
  unfold OfflineService.syncPendingActions
  simp only [LocalStore.getPendingActions, hq, hne, Bool.false_eq_true, if_false]
  exact ⟨h1, h2⟩

/-- C1 (witness).  Distinct-id queue `[wA, wB, wC]` where `wB` (position 1)
is the first failure: the queue ends as `[wB, wC]` and only `[wA, wB]` were
dispatched. -/
theorem syncPendingActions_halts_at_first_failure_witness :
    (OfflineService.syncPendingActions envW 50 storeW stW).1.pendingActions = [wB, wC]
    ∧ (OfflineService.syncPendingActions envW 50 storeW stW).2.2 = [wA, wB] := by
  obtain ⟨h1, h2⟩ := syncPendingActions_halts_at_first_failure envW 50 storeW stW
    [wA, wB, wC] 1 rfl (by decide) (by decide) (by decide) (by decide)
  exact ⟨h1, h2⟩

/-- C2 (counterexample).  Starting from a consistent system (published count
0, empty queue), one offline `createTask` through the gateway enqueues a
pending action but republishes nothing (`TaskService` has no path to
`updateSyncStatus`), so immediately after the enqueue the published
`pendingSyncCount` (still 0) differs from the live queue length (1). -/
theorem pendingSyncCount_stale_after_enqueue :
    sysBefore.status.pendingSyncCount = sysBefore.store.pendingActions.length
    ∧ sysAfter.store.pendingActions.length = 1
    ∧ sysAfter.status.pendingSyncCount = 0
    ∧ sysAfter.status.pendingSyncCount ≠ sysAfter.store.pendingActions.length := by decide

/-- C2 (amended).  The published `pendingSyncCount` equals the live queue
length only at the points where `updateSyncStatus` runs — in particular at
the end of every drain of a nonempty queue; individual enqueues and
mid-drain dequeues do not republish the status. -/
theorem pendingSyncCount_matches_after_drain (env : RemoteCall → Option Task) (now : Nat)
    (s : LocalStore) (st : SyncStatus) (h : s.pendingActions ≠ []) :
    (OfflineService.syncPendingActions env now s st).2.1.pendingSyncCount
      = (OfflineService.syncPendingActions env now s st).1.pendingActions.length := by
  have hne : s.pendingActions.isEmpty = false := by
    cases hp : s.pendingActions
    · exact absurd hp h
    · rfl
  unfold OfflineService.syncPendingActions
  simp [LocalStore.getPendingActions, hne, OfflineService.updateSyncStatus]

/-- C2 (witness for the amended claim) at the concrete three-action drain. -/
theorem pendingSyncCount_matches_after_drain_witness :
    (OfflineService.syncPendingActions envW 50 storeW stW).2.1.pendingSyncCount
      = (OfflineService.syncPendingActions envW 50 storeW stW).1.pendingActions.length :=
  pendingSyncCount_matches_after_drain envW 50 storeW stW (by decide)

/-- C3 (code bug).  A drain over a never-synced single-action queue whose
only action fails replay still stamps `lastSyncTime` with the drain time —
the code calls `setLastSyncTime` unconditionally after the loop — although
nothing was synced, contradicting the claim (and the repository's own
README: "last_sync — Last successful sync timestamp"). -/
theorem lastSyncTime_set_despite_failed_drain :
    OfflineService.actionSucceeds envNone 123 aFail = false
    ∧ (OfflineService.syncPendingActions envNone 123 storeFail stFail).1.pendingActions = [aFail]
    ∧ storeFail.lastSync = none
    ∧ (OfflineService.syncPendingActions envNone 123 storeFail stFail).1.lastSync = some 123
    ∧ (OfflineService.syncPendingActions envNone 123 storeFail stFail).2.1.lastSyncTime
        = some 123 := by decide

/-- C4 (counterexample).  `reorderTasks` invoked while ONLINE issues no
remote call at all and still rewrites the Local Cache. -/
theorem reorderTasks_online_no_remote_call :
    (TaskService.reorderTasks true 9 [{ id := some 1, title := "a", priority := some 5 }]
        { tasks := [{ id := some 1, title := "a", priority := some 5 }] }).2.1 = ([] : List RemoteCall)
    ∧ (TaskService.reorderTasks true 9 [{ id := some 1, title := "a", priority := some 5 }]
        { tasks := [{ id := some 1, title := "a", priority := some 5 }] }).1
        ≠ { tasks := [{ id := some 1, title := "a", priority := some 5 }] } := by decide

/-- C4 (amended).  For create, update, patch and delete invoked while
online, the gateway issues exactly the one corresponding remote call; on
failure the cache is untouched and the classified error is returned, on
success the response is written into the cache.  Reorder is the exception:
online it rewrites the cache unconditionally and issues no remote call. -/
theorem online_mutation_remote_call_spec (now : Nat) (s : LocalStore)
    (payload : CreateTaskPayload) (i : Nat) (t : Task) (d : TaskPatch) (ts : List Task)
    (e : HttpErrorResponse) (rt : Task) :
    TaskService.createTask true now payload (.error e) s
      = (s, [.post { id := none, title := payload.title, description := payload.description,
                     status := payload.status, createdAt := now, priority := payload.priority }],
         .error (handleError e))
    ∧ TaskService.createTask true now payload (.ok rt) s
      = (s.addTask rt,
         [.post { id := none, title := payload.title, description := payload.description,
                  status := payload.status, createdAt := now, priority := payload.priority }],
         .ok rt)
    ∧ TaskService.updateTask true now i t (.error e) s = (s, [.put i t], .error (handleError e))
    ∧ TaskService.updateTask true now i t (.ok rt) s = (s.updateTask rt, [.put i t], .ok rt)
    ∧ TaskService.patchTask true now i d (.error e) s = (s, [.patch i d], .error (handleError e))
    ∧ TaskService.patchTask true now i d (.ok rt) s = (s.updateTask rt, [.patch i d], .ok rt)
    ∧ TaskService.deleteTask true now i (.error e) s = (s, [.delete i], .error (handleError e))
    ∧ TaskService.deleteTask true now i (.ok ()) s = (s.deleteTask i, [.delete i], .ok ())
    ∧ TaskService.reorderTasks true now ts s = (s.reorderTasks ts, [], .ok ts) :=
  ⟨rfl, rfl, rfl, rfl, rfl, rfl, rfl, rfl, rfl⟩

/-- C5 (confirmed).  Patching an id absent from the Local Cache while
offline fails with the thrown string "Task not found", enqueues nothing and
leaves the entire store (cached task list included) unchanged — in
particular it never creates a task. -/
theorem patchTask_offline_not_found (now i : Nat) (d : TaskPatch)
    (remote : Except HttpErrorResponse Task) (s : LocalStore)
    (h : ∀ t ∈ s.tasks, t.id ≠ some i) :
    TaskService.patchTask false now i d remote s = (s, [], .error "Task not found") := by
  have hfind : List.find? (fun t => t.id == some i) s.tasks = none := by
    rw [List.find?_eq_none]
    intro t ht
    simpa using h t ht
  simp [TaskService.patchTask, LocalStore.getTasks, hfind]

/-- C5 (witness) on a one-task cache and a missing id. -/
theorem patchTask_offline_not_found_witness :
    TaskService.patchTask false 7 2 {} (.ok {}) { tasks := [{ id := some 1, title := "a" }] }
      = ({ tasks := [{ id := some 1, title := "a" }] }, [], .error "Task not found") :=
  patchTask_offline_not_found 7 2 {} (.ok {}) { tasks := [{ id := some 1, title := "a" }] }
    (by decide)

/-- C6 (counterexample).  A task arriving with priority 0 does NOT keep it:
`task.priority || tasks.length` treats 0 as unset (JavaScript falsy), so on
a one-task cache the appended copy carries priority 1, not 0. -/
theorem addTask_zero_priority_overwritten :
    (LocalStore.addTask { tasks := [{ id := some 1, title := "a" }] }
        { id := some 2, title := "b", priority := some 0 }).tasks
      ≠ [{ id := some 1, title := "a" }, { id := some 2, title := "b", priority := some 0 }]
    ∧ (LocalStore.addTask { tasks := [{ id := some 1, title := "a" }] }
        { id := some 2, title := "b", priority := some 0 }).tasks
      = [{ id := some 1, title := "a" }, { id := some 2, title := "b", priority := some 1 }] := by
  decide

/-- C6 (amended).  `addTask(t)` on a cache of length `L` appends one task:
`t` with priority `L` when `t.priority` is absent OR equal to 0 (both falsy
in JavaScript), and `t` unchanged when its priority is a nonzero value. -/
theorem addTask_priority_assignment (s : LocalStore) (t : Task) :
    (s.addTask t).tasks = s.tasks ++
      [{ t with priority := some (if t.priority = none ∨ t.priority = some 0
                                  then s.tasks.length else t.priority.getD 0) }] := by
  rcases h : t.priority with _ | (_ | k) <;>
    simp [LocalStore.addTask, LocalStore.assignPriority, jsOrNat, h]

/-- C7 (confirmed).  `reorderTasks` on a list of `N` tasks persists them
with priorities `0 … N-1` in positional order, and an offline `getTasks`
fetch (no status filter, either creation-time direction) returns exactly
that list in the same order, because the cached list is already sorted by
its all-present, strictly-increasing priorities. -/
theorem reorderTasks_then_getTasks_order (s : LocalStore) (ts : List Task)
    (sortByCreatedAtDesc : Bool) (remote : Except HttpErrorResponse (List Task)) :
    ((s.reorderTasks ts).tasks.map Task.priority = (List.range ts.length).map some)
    ∧ (TaskService.getTasks false { status := none, sortByCreatedAtDesc := sortByCreatedAtDesc }
          remote (s.reorderTasks ts)).2.2
        = Except.ok ((s.reorderTasks ts).tasks) := by
  constructor
  · rw [List.range_eq_range']
    exact LocalStore.assignIndices_map_priority ts 0
  · simp only [TaskService.getTasks, Bool.not_false, if_true, LocalStore.getTasks,
      LocalStore.reorderTasks, LocalStore.saveTasks]
    rw [List.mergeSort_of_sorted (LocalStore.assignIndices_pairwise_le sortByCreatedAtDesc ts 0)]

/-- C8 (counterexample).  A payload task with the id 0 HAS an id, yet its
replay dispatches no call: the source guards each patch with the JavaScript
truthiness check `if (task.id)` and 0 is falsy.  For the one-task payload
`[{ id: 0, priority: 2 }]` the claim demands one patch call; the program
dispatches none, even with every remote call succeeding. -/
theorem reorder_replay_zero_id_skipped :
    PendingAction.replayCalls 9
        { id := 5, type := .reorder,
          data := some [{ id := some 0, title := "zero", priority := some 2 }],
          timestamp := 3 } = []
    ∧ (OfflineService.runReplayCalls (fun _ => some {}) {}
        (PendingAction.replayCalls 9
          { id := 5, type := .reorder,
            data := some [{ id := some 0, title := "zero", priority := some 2 }],
            timestamp := 3 })).2.1
        ≠ [RemoteCall.patch 0 { priority := some (some 2) }] := by decide

/-- C8 (amended).  Replaying a queued reorder action whose payload holds
`ts`, when every call succeeds, dispatches exactly one priority patch per
task of `ts` with a TRUTHY id (present and nonzero — `if (task.id)` skips
the falsy id 0), in payload order, each carrying that task's stored
priority value — independent per-task calls, no batch call. -/
theorem reorder_replay_per_task_calls (env : RemoteCall → Option Task)
    (now aid tstamp : Nat) (s : LocalStore) (ts : List Task)
    (h : ∀ c ∈ PendingAction.reorderReplayCalls ts, (env c).isSome = true) :
    (OfflineService.runReplayCalls env s
        (PendingAction.replayCalls now
          { id := aid, type := .reorder, data := some ts, timestamp := tstamp })).2.1
      = ts.filterMap
          (fun t =>
            match t.id with
            | some (i + 1) => some (RemoteCall.patch (i + 1) { priority := some t.priority })
            | _ => none) := by
  have hcalls : PendingAction.replayCalls now
      { id := aid, type := .reorder, data := some ts, timestamp := tstamp }
      = PendingAction.reorderReplayCalls ts := rfl
  rw [hcalls, OfflineService.runReplayCalls_calls_of_all_ok env
    (PendingAction.reorderReplayCalls ts) h s,
    PendingAction.reorderReplayCalls_eq_filterMap]

/-- C8 (witness): a four-task payload (one task without an id, one with the
falsy id 0) replayed in an all-success environment yields exactly the two
patch calls for the tasks with truthy ids. -/
theorem reorder_replay_per_task_calls_witness :
    (OfflineService.runReplayCalls (fun _ => some {}) {}
        (PendingAction.replayCalls 9
          { id := 5, type := .reorder,
            data := some [{ id := some 1, title := "a", priority := some 4 },
                          { title := "noid" },
                          { id := some 0, title := "zero", priority := some 2 },
                          { id := some 3, title := "c" }],
            timestamp := 3 })).2.1
      = [RemoteCall.patch 1 { priority := some (some 4) },
         RemoteCall.patch 3 { priority := some none }] := by
  rw [reorder_replay_per_task_calls (fun _ => some {}) 9 5 3 {}
    [{ id := some 1, title := "a", priority := some 4 },
     { title := "noid" },
     { id := some 0, title := "zero", priority := some 2 },
     { id := some 3, title := "c" }] (by decide)]
  decide

/-- C9 (counterexample).  Two enqueues within the same millisecond
(`Date.now()` = 42 twice) receive EQUAL ids, and removing the first action's
id removes both actions. -/
theorem addPendingAction_same_millisecond_collision :
    storeCollide.pendingActions.map PendingAction.id = [42, 42]
    ∧ ¬ (storeCollide.pendingActions.map PendingAction.id).Nodup
    ∧ (storeCollide.removePendingAction 42).pendingActions = [] := by decide

/-- C9 (amended).  Ids are distinct provided every enqueue happens at a
distinct clock reading (also distinct from the ids already queued): the id
IS the millisecond timestamp, so uniqueness holds exactly up to clock
collisions. -/
theorem addPendingAction_ids_nodup (s : LocalStore) (l : List (Nat × PendingActionDraft))
    (h : (s.pendingActions.map PendingAction.id ++ l.map Prod.fst).Nodup) :
    ((enqueueAll s l).pendingActions.map PendingAction.id).Nodup := by
  rw [enqueueAll_ids]
  exact h

/-- C9 (witness): two enqueues at distinct milliseconds from the empty store. -/
theorem addPendingAction_ids_nodup_witness :
    ((enqueueAll {} distinctEnqueues).pendingActions.map PendingAction.id).Nodup :=
  addPendingAction_ids_nodup {} distinctEnqueues (by decide)

/-- C10 (confirmed).  Offline `updateTask` always appends an `update`
pending action and returns the task successfully, with no existence check:
when no cached task carries the incoming id, the cached list itself is left
unchanged (the cache write-through is a silent no-op). -/
theorem updateTask_offline_always_enqueues (now i : Nat) (t : Task)
    (remote : Except HttpErrorResponse Task) (s : LocalStore) :
    (TaskService.updateTask false now i t remote s).1.pendingActions
      = s.pendingActions ++
        [{ id := now, type := .update, task := some t, taskId := none, data := none,
           timestamp := now }]
    ∧ (TaskService.updateTask false now i t remote s).2.2 = .ok t
    ∧ ((∀ u ∈ s.tasks, u.id ≠ t.id) →
        (TaskService.updateTask false now i t remote s).1.tasks = s.tasks) := by
  refine ⟨?_, rfl, ?_⟩
  · simp [TaskService.updateTask, LocalStore.addPendingAction,
      LocalStore.updateTask_pendingActions]
  · intro h
    simp [TaskService.updateTask, LocalStore.addPendingAction,
      LocalStore.updateTask_of_absent s t h]

/-- C10 (witness): offline update of an id absent from an empty cache still
enqueues and succeeds while the cache stays empty. -/
theorem updateTask_offline_always_enqueues_witness :
    (TaskService.updateTask false 7 1 { id := some 1, title := "t" } (.ok {})
        ({} : LocalStore)).1.pendingActions
      = [{ id := 7, type := .update, task := some { id := some 1, title := "t" },
           taskId := none, data := none, timestamp := 7 }]
    ∧ (TaskService.updateTask false 7 1 { id := some 1, title := "t" } (.ok {})
        ({} : LocalStore)).1.tasks = [] := by
  obtain ⟨h1, _, h3⟩ := updateTask_offline_always_enqueues 7 1 { id := some 1, title := "t" }
    (.ok {}) ({} : LocalStore)
  exact ⟨by simpa using h1, h3 (by decide)⟩

end CopilotTest
